import Mathlib

set_option maxHeartbeats 1000000

/-! Shallow embedding of the gssh wrapper (main.go): the host profile
record, the SSH argument builder, the shell-display command renderer,
the target lister, the list-mode loop, and the configuration resolver.
Directories are modelled as the entry list a successful read returns
(`none` for a failed read); the viper precedence merge, which lives in
the external library, is modelled from the spec where noted. -/

/-- One directory entry as returned by the operating system directory
read: the file name and whether the entry is a subdirectory. -/
structure DirEntry where
  name : String
  isDir : Bool
deriving DecidableEq, Repr

/-- HostConfig from main.go: the resolved SSH host configuration. -/
structure HostConfig where
  host : String
  user : String
  port : Int
  identity : String
deriving DecidableEq, Repr

/-- The double-quote character. -/
def dquote : Char := Char.ofNat 34

/-- The single-quote character. -/
def squote : Char := Char.ofNat 39

/-- ASCII lower-casing of one character; strings.ToLower restricted to
the ASCII range relevant to file-name extensions. -/
def asciiLower (c : Char) : Char :=
  if 'A' ≤ c ∧ c ≤ 'Z' then Char.ofNat (c.toNat + 32) else c

/-- ASCII upper-casing of one character (strings.ToUpper on ASCII). -/
def asciiUpper (c : Char) : Char :=
  if 'a' ≤ c ∧ c ≤ 'z' then Char.ofNat (c.toNat - 32) else c

/-- strings.ToLower on ASCII strings. -/
def strToLower (s : String) : String :=
  String.mk (s.toList.map asciiLower)

/-- Scan a reversed character list up to and including the first dot;
`none` when there is no dot. -/
def takeThroughDot : List Char → Option (List Char)
  | [] => none
  | c :: rest =>
    if c = '.' then some [c]
    else
      match takeThroughDot rest with
      | none => none
      | some l => some (c :: l)

/-- filepath.Ext applied to a bare file name (no separators): the
suffix starting at the final dot, or empty when the name has no dot. -/
def fileExt (s : String) : String :=
  match takeThroughDot s.toList.reverse with
  | none => ""
  | some l => String.mk l.reverse

/-- strings.TrimSuffix: remove the suffix when the string ends with it,
else return the string unchanged. -/
def trimSuffix (s suf : String) : String :=
  if suf.toList.isSuffixOf s.toList then
    String.mk (s.toList.take (s.toList.length - suf.toList.length))
  else s

/-- Lexicographic comparison of character lists by code point; on the
ASCII names involved this coincides with the byte-wise order sort.Strings
uses (UTF-8 preserves code-point order byte-wise). -/
def lexLe : List Char → List Char → Bool
  | [], _ => true
  | _ :: _, [] => false
  | a :: as, b :: bs => if a = b then lexLe as bs else decide (a < b)

/-- The string order sort.Strings sorts by. -/
def strLe (s t : String) : Bool := lexLe s.toList t.toList

/-- listTargets from main.go (lines 167-186): skip subdirectories, keep
entries whose lower-cased extension is .yaml or .yml, trim that
lower-cased extension, sort ascending. The directory argument is the
entry list of a successful os.ReadDir, or `none` when the read fails. -/
def listTargets (dir : Option (List DirEntry)) : Option (List String) :=
  match dir with
  | none => none
  | some entries =>
    let out := entries.filterMap (fun e =>
      if e.isDir then none
      else
        let ext := strToLower (fileExt e.name)
        if ext = ".yaml" ∨ ext = ".yml" then some (trimSuffix e.name ext)
        else none)
    some (List.insertionSort (fun a b => strLe a b = true) out)

/-- fmt.Sprintf with the %d verb on the int port. -/
def intDec (n : Int) : String :=
  if n < 0 then "-" ++ Nat.repr n.natAbs else Nat.repr n.natAbs

/-- buildSSHArgs from main.go (lines 188-207). -/
def buildSSHArgs (cfg : HostConfig) (remoteCmd : List String) : List String :=
  let args : List String := []
  let args := if cfg.identity ≠ "" then args ++ ["-i", cfg.identity] else args
  let args := if cfg.port ≠ 0 ∧ cfg.port ≠ 22 then args ++ ["-p", intDec cfg.port] else args
  let dest := if cfg.user ≠ "" then cfg.user ++ "@" ++ cfg.host else cfg.host
  let args := args ++ [dest]
  if remoteCmd.length > 0 then args ++ remoteCmd else args

/-- needsQuoting from main.go: strings.ContainsAny with space, tab,
double quote, single quote. -/
def needsQuoting (s : String) : Bool :=
  s.toList.any (fun c => c == ' ' || c == '\t' || c == dquote || c == squote)

/-- strings.ReplaceAll for a one-character pattern. -/
def replaceChar : List Char → Char → List Char → List Char
  | [], _, _ => []
  | c :: cs, t, r => (if c = t then r else [c]) ++ replaceChar cs t r

/-- quote from main.go: double the backslashes, escape the double
quotes, wrap in double quotes. -/
def quote (s : String) : String :=
  let r := replaceChar s.toList '\\' ['\\', '\\']
  let r := replaceChar r dquote ['\\', dquote]
  String.mk ([dquote] ++ r ++ [dquote])

/-- strings.Join: the parts joined with the separator between them. -/
def strJoin : List String → String → String
  | [], _ => ""
  | [a], _ => a
  | a :: rest, sep => a ++ sep ++ strJoin rest sep

/-- renderCommand from main.go (lines 209-219): the command name and
each argument, quoted when needed, joined with single spaces. -/
def renderCommand (cmd : String) (args : List String) : String :=
  strJoin (cmd :: args.map (fun a => if needsQuoting a then quote a else a)) " "

/-- A configuration source that may set each HostConfig field
individually (a layer of the precedence merge). -/
structure PartialProfile where
  host : Option String
  user : Option String
  port : Option Int
  identity : Option String
deriving DecidableEq, Repr

/-- The source layer that sets no field. -/
def emptyPartial : PartialProfile := ⟨none, none, none, none⟩

/-- One field's precedence resolution: the first of flag, environment,
file to set the field, else the built-in default. -/
def pickFirst {α : Type} (flag env file : Option α) (dflt : α) : α :=
  flag.getD (env.getD (file.getD dflt))

/-- Modelled from the spec: the environment variable name consulted for
a flag — the fixed prefix GSSH, then the upper-cased flag name with
dashes replaced by underscores. The binding itself (main.go lines
64-67) is performed by the viper library, whose code is not in src. -/
def envKey (flagName : String) : String :=
  "GSSH_" ++ String.mk (flagName.toList.map (fun c => if c = '-' then '_' else asciiUpper c))

/-- Modelled from the spec: the environment layer of the merge, read by
viper (not in src) from the raw environment via `envKey` names; the
port value is cast to an integer, unparsable set values casting to 0. -/
def envProfile (rawEnv : String → Option String) : PartialProfile :=
  { host := rawEnv (envKey "host")
    user := rawEnv (envKey "user")
    port := (rawEnv (envKey "port")).map (fun s => (s.toInt?).getD 0)
    identity := rawEnv (envKey "identity") }

/-- Modelled from the spec: the per-field precedence merge viper (not in
src) performs — flags over environment over profile file over the
built-in defaults (port 22, other fields empty); main.go configures it
at lines 63-71 and reads the merged fields at lines 112-117. -/
def mergeSources (flags env file : PartialProfile) : HostConfig :=
  { host := pickFirst flags.host env.host file.host ""
    user := pickFirst flags.user env.user file.user ""
    port := pickFirst flags.port env.port file.port 22
    identity := pickFirst flags.identity env.identity file.identity "" }

/-- The fatal message of main.go line 121, naming the sources that can
supply the host. -/
def hostRequiredMsg : String :=
  "host is required. Set --host, GSSH_HOST, or provide a target via --target with host in YAML"

/-- The exit code used by fatal (main.go lines 238-241). -/
def fatalExitCode : Nat := 1

/-- main.go lines 119-130: post-merge validation — empty host is fatal
(modelled as the error case), empty user is accepted, non-positive port
is coerced to 22. -/
def validateConfig (cfg : HostConfig) : Except String HostConfig :=
  if cfg.host = "" then Except.error hostRequiredMsg
  else Except.ok { cfg with port := if cfg.port ≤ 0 then 22 else cfg.port }

/-- The two fatal outcomes of resolution: a config read failure naming
the target (main.go line 107), or the post-merge validation failure. -/
inductive ResolveErr where
  | configRead (target msg : String)
  | validation (msg : String)
deriving DecidableEq, Repr

/-- Merge the three layers and validate (main.go lines 111-130). -/
def finalize (flags : PartialProfile) (rawEnv : String → Option String)
    (file : PartialProfile) : Except ResolveErr HostConfig :=
  match validateConfig (mergeSources flags (envProfile rawEnv) file) with
  | Except.error m => Except.error (ResolveErr.validation m)
  | Except.ok cfg => Except.ok cfg

/-- main.go lines 99-130: read the profile file only when a target name
was given (a read failure is then fatal, naming the target), merge and
validate. `readFile` models viper's ReadInConfig over the candidate
directories: the first matching file's fields, or the failure text. -/
def resolve (flags : PartialProfile) (rawEnv : String → Option String)
    (flagTarget : String) (readFile : String → Except String PartialProfile) :
    Except ResolveErr HostConfig :=
  if flagTarget = "" then finalize flags rawEnv emptyPartial
  else
    match readFile flagTarget with
    | Except.error e => Except.error (ResolveErr.configRead flagTarget e)
    | Except.ok p => finalize flags rawEnv p

/-- A candidate configuration directory for list mode: its path and the
entry list of a successful read (`none` when reading fails). -/
structure CandidateDir where
  path : String
  contents : Option (List DirEntry)

/-- The line printed for one listed target (main.go line 88). -/
def targetLine (t : String) (dir : String) : String := t ++ " (" ++ dir ++ ")"

/-- The loop of main.go lines 84-92: for each candidate directory whose
listing succeeds with at least one target, print the targets and record
that some were found; failed or empty listings are skipped. -/
def listLoop : List CandidateDir → List String → Bool → List String × Bool
  | [], acc, found => (acc, found)
  | d :: rest, acc, found =>
    match listTargets d.contents with
    | some ts =>
      if ts.length > 0 then listLoop rest (acc ++ ts.map (fun t => targetLine t d.path)) true
      else listLoop rest acc found
    | none => listLoop rest acc found

/-- What list mode prints and how it exits. -/
structure ListOutput where
  lines : List String
  noTargetsMsg : Bool
  exitCode : Nat
deriving DecidableEq, Repr

/-- main.go lines 81-97: the --list branch — run the loop over the
candidate directories, print the informational message exactly when
nothing was found, and exit 0. -/
def listMode (dirs : List CandidateDir) : ListOutput :=
  let r := listLoop dirs [] false
  { lines := r.1, noTargetsMsg := !r.2, exitCode := 0 }

/-- The targets successfully listed across all candidate directories
(a failed directory contributes nothing). -/
def allTargets (dirs : List CandidateDir) : List String :=
  (dirs.map (fun d => (listTargets d.contents).getD [])).flatten

/-- The spec's description of quoting, written from its words: wrap in
double quotes, double each internal backslash, escape each internal
double quote with a backslash. -/
def quoteSpec (s : String) : String :=
  String.mk ([dquote] ++ s.toList.flatMap (fun c =>
    if c = '\\' then ['\\', '\\']
    else if c = dquote then ['\\', dquote]
    else [c]) ++ [dquote])

/-- The amended specification of one entry's contribution to the target
list: a non-directory entry whose lower-cased extension is .yaml or
.yml yields its name with that lower-cased extension stripped when the
name ends with it (always so for lower-case extensions), and yields the
whole name unchanged otherwise (upper-case extensions); every other
entry yields nothing. -/
def targetOfEntrySpec (e : DirEntry) : Option String :=
  if e.isDir then none
  else
    let ext := strToLower (fileExt e.name)
    if ext = ".yaml" ∨ ext = ".yml" then
      some (if ext.toList.isSuffixOf e.name.toList then
              String.mk (e.name.toList.take (e.name.toList.length - ext.toList.length))
            else e.name)
    else none

example : buildSSHArgs (HostConfig.mk "example.com" "alice" 2222 "/path/to/key") ["ls", "-l"]
    = ["-i", "/path/to/key", "-p", "2222", "alice@example.com", "ls", "-l"] := by decide

example : buildSSHArgs (HostConfig.mk "host" "" 22 "") [] = ["host"] := by decide

example : listTargets (some [DirEntry.mk "ipa.yaml" false, DirEntry.mk "web.yml" false,
    DirEntry.mk "notyaml.txt" false, DirEntry.mk "subdir" true]) = some ["ipa", "web"] := by decide

example : quote "hello world" = "\"hello world\"" := by decide

example : quote "a\"b" = "\"a\\\"b\"" := by decide

example : quote "a\\b" = "\"a\\\\b\"" := by decide

example : renderCommand "ssh" ["-i", "/path/key", "user@host", "echo", "hello world"]
    = "ssh -i /path/key user@host echo \"hello world\"" := by decide

example : listTargets (some [DirEntry.mk "A.YML" false]) = some ["A.YML"] := by decide

example : listTargets (some [DirEntry.mk ".yaml" false]) = some [""] := by decide

/-- The argument list buildSSHArgs produces, written as one
concatenation of its four sections. -/
theorem buildSSHArgs_eq (cfg : HostConfig) (rc : List String) :
    buildSSHArgs cfg rc =
      (if cfg.identity ≠ "" then ["-i", cfg.identity] else []) ++
      (if cfg.port ≠ 0 ∧ cfg.port ≠ 22 then ["-p", intDec cfg.port] else []) ++
      [if cfg.user ≠ "" then cfg.user ++ "@" ++ cfg.host else cfg.host] ++ rc := by
  unfold buildSSHArgs
  rcases rc with _ | ⟨a, rest⟩ <;> split_ifs <;> simp_all

/-- Replacing one character distributes over list concatenation. -/
theorem replaceChar_append (l1 l2 : List Char) (t : Char) (r : List Char) :
    replaceChar (l1 ++ l2) t r = replaceChar l1 t r ++ replaceChar l2 t r := by
  induction l1 with
  | nil => rfl
  | cons c cs ih => simp [replaceChar, ih]

/-- The two sequential one-character replacements of quote (double each
backslash, then escape each double quote) act as one per-character
expansion: the backslashes produced by the first pass are untouched by
the second. -/
theorem replace_backslash_then_dquote (l : List Char) :
    replaceChar (replaceChar l '\\' ['\\', '\\']) dquote ['\\', dquote] =
      l.flatMap (fun c =>
        if c = '\\' then ['\\', '\\']
        else if c = dquote then ['\\', dquote]
        else [c]) := by
  induction l with
  | nil => rfl
  | cons c cs ih =>
    show replaceChar ((if c = '\\' then ['\\', '\\'] else [c]) ++ replaceChar cs '\\' ['\\', '\\'])
        dquote ['\\', dquote] = _
    rw [replaceChar_append, ih]
    by_cases h1 : c = '\\'
    · subst h1
      rw [if_pos rfl]
      have hbd : replaceChar ['\\', '\\'] dquote ['\\', dquote] = ['\\', '\\'] := by decide
      rw [hbd]
      rfl
    · by_cases h2 : c = dquote
      · subst h2
        rw [if_neg h1]
        have hdd : replaceChar [dquote] dquote ['\\', dquote] = ['\\', dquote] := by decide
        rw [hdd]
        simp [h1]
      · rw [if_neg h1]
        have hcc : replaceChar [c] dquote ['\\', dquote] = [c] := by
          simp [replaceChar, h2]
        rw [hcc]
        simp [h1, h2]

/-- quote computes exactly the spec's per-character quoting. -/
theorem quote_eq_quoteSpec (s : String) : quote s = quoteSpec s := by
  show String.mk ([dquote] ++ replaceChar (replaceChar s.toList '\\' ['\\', '\\'])
      dquote ['\\', dquote] ++ [dquote]) = quoteSpec s
  rw [replace_backslash_then_dquote]
  rfl

/-- lexLe is total. -/
theorem lexLe_total (as bs : List Char) : lexLe as bs = true ∨ lexLe bs as = true := by
  induction as generalizing bs with
  | nil => left; rfl
  | cons a as ih =>
    cases bs with
    | nil => right; rfl
    | cons b bs =>
      by_cases h : a = b
      · subst h
        rcases ih bs with h' | h'
        · left; simp [lexLe, h']
        · right; simp [lexLe, h']
      · rcases lt_or_gt_of_ne h with hlt | hgt
        · left; simp [lexLe, h, hlt]
        · right; simp [lexLe, Ne.symm h, hgt]

/-- lexLe is transitive. -/
theorem lexLe_trans {as bs cs : List Char} (h1 : lexLe as bs = true)
    (h2 : lexLe bs cs = true) : lexLe as cs = true := by
  induction as generalizing bs cs with
  | nil => rfl
  | cons a as ih =>
    cases bs with
    | nil => simp [lexLe] at h1
    | cons b bs =>
      cases cs with
      | nil => simp [lexLe] at h2
      | cons c cs =>
        by_cases hab : a = b
        · subst hab
          by_cases hac : a = c
          · subst hac
            simp only [lexLe, if_pos rfl] at h1 h2 ⊢
            exact ih h1 h2
          · simp only [lexLe, if_neg hac] at h2 ⊢
            exact h2
        · simp only [lexLe, if_neg hab, decide_eq_true_eq] at h1
          by_cases hbc : b = c
          · subst hbc
            have hac : a ≠ b := ne_of_lt h1
            simp only [lexLe, if_neg hac, decide_eq_true_eq]
            exact h1
          · simp only [lexLe, if_neg hbc, decide_eq_true_eq] at h2
            have hac : a < c := lt_trans h1 h2
            simp only [lexLe, if_neg (ne_of_lt hac), decide_eq_true_eq]
            exact hac

instance : IsTotal String (fun a b => strLe a b = true) :=
  ⟨fun a b => lexLe_total a.toList b.toList⟩

instance : IsTrans String (fun a b => strLe a b = true) :=
  ⟨fun _ _ _ h1 h2 => lexLe_trans h1 h2⟩

/-- The found flag of the list-mode loop: true exactly when some
directory in the remainder lists successfully and non-emptily, or the
flag was already set. -/
theorem listLoop_found (ds : List CandidateDir) (acc : List String) (f : Bool) :
    (listLoop ds acc f).2 =
      (f || ds.any (fun d => !((listTargets d.contents).getD []).isEmpty)) := by
  induction ds generalizing acc f with
  | nil => simp [listLoop]
  | cons d rest ih =>
    cases h : listTargets d.contents with
    | none => simp [listLoop, h, ih]
    | some ts =>
      cases ts with
      | nil => simp [listLoop, h, ih]
      | cons t ts' => simp [listLoop, h, ih]

/-- A candidate directory whose read fails is skipped by the list-mode
loop without any effect. -/
theorem listLoop_skip (pre post : List CandidateDir) (acc : List String) (f : Bool)
    (d : CandidateDir) (hd : d.contents = none) :
    listLoop (pre ++ d :: post) acc f = listLoop (pre ++ post) acc f := by
  induction pre generalizing acc f with
  | nil => simp [listLoop, hd, listTargets]
  | cons p rest ih =>
    cases h : listTargets p.contents with
    | none => simp [listLoop, h, ih]
    | some ts =>
      cases ts with
      | nil => simp [listLoop, h, ih]
      | cons t ts' => simp [listLoop, h, ih]

/-- No targets were collected across the candidate directories exactly
when no directory lists successfully and non-emptily. -/
theorem allTargets_eq_nil_iff (ds : List CandidateDir) :
    (allTargets ds = []) ↔
      ds.any (fun d => !((listTargets d.contents).getD []).isEmpty) = false := by
  simp [allTargets, List.flatten_eq_nil_iff, List.any_eq_false, List.isEmpty_iff]

/-- The only validation failure message is the missing-host one. -/
theorem validateConfig_error_msg {cfg : HostConfig} {m : String}
    (h : validateConfig cfg = Except.error m) : m = hostRequiredMsg := by
  unfold validateConfig at h
  by_cases hh : cfg.host = ""
  · rw [if_pos hh] at h
    injection h with h'
    exact h'.symm
  · rw [if_neg hh] at h
    exact absurd h (by simp)

/-- C1: for every host profile and every remote command token list,
buildSSHArgs produces exactly, in order: -i followed by the identity
path iff the identity is non-empty; then -p followed by the decimal
rendering of the port iff the port differs from 22 and from the unset
value 0 (port 22 is never emitted); then the single destination
argument user@host, or host alone when the user is empty; then every
remote token verbatim in original order as separate arguments. -/
theorem buildSSHArgs_exact_order (cfg : HostConfig) (rc : List String) :
    buildSSHArgs cfg rc =
      (if cfg.identity ≠ "" then ["-i", cfg.identity] else []) ++
      (if cfg.port ≠ 0 ∧ cfg.port ≠ 22 then ["-p", intDec cfg.port] else []) ++
      [if cfg.user ≠ "" then cfg.user ++ "@" ++ cfg.host else cfg.host] ++ rc :=
  buildSSHArgs_eq cfg rc

/-- C2: after the merge, validation fails (the fatal path, exiting with
the non-zero code 1) with the message naming the sources that can
supply the host exactly when the resolved host is empty; a port that is
not positive is never fatal and yields port 22; an empty user is
accepted unchanged. -/
theorem validateConfig_post_merge (cfg : HostConfig) :
    (cfg.host = "" → validateConfig cfg = Except.error hostRequiredMsg) ∧
    (cfg.host ≠ "" → cfg.port ≤ 0 →
      validateConfig cfg = Except.ok (HostConfig.mk cfg.host cfg.user 22 cfg.identity)) ∧
    (cfg.host ≠ "" → 0 < cfg.port → validateConfig cfg = Except.ok cfg) ∧
    fatalExitCode ≠ 0 := by
  refine ⟨?_, ?_, ?_, by decide⟩
  · intro h
    unfold validateConfig
    rw [if_pos h]
  · intro h hp
    unfold validateConfig
    rw [if_neg h, if_pos hp]
  · intro h hp
    unfold validateConfig
    rw [if_neg h, if_neg (not_le.mpr hp)]

/-- Witness for C2 at concrete profiles: an empty host fails with the
message, a zero port with a host present resolves to port 22. -/
theorem validateConfig_post_merge_witness :
    validateConfig (HostConfig.mk "" "" 22 "") = Except.error hostRequiredMsg ∧
    validateConfig (HostConfig.mk "h" "u" 0 "k") = Except.ok (HostConfig.mk "h" "u" 22 "k") ∧
    validateConfig (HostConfig.mk "h" "" 2222 "k") = Except.ok (HostConfig.mk "h" "" 2222 "k") :=
  ⟨(validateConfig_post_merge (HostConfig.mk "" "" 22 "")).1 rfl,
   (validateConfig_post_merge (HostConfig.mk "h" "u" 0 "k")).2.1 (by decide) (by decide),
   (validateConfig_post_merge (HostConfig.mk "h" "" 2222 "k")).2.2.1 (by decide) (by decide)⟩

/-- C4: the renderer output is the command name and each argument,
space-joined, an argument being wrapped in double quotes — each
internal backslash doubled, each internal double quote escaped with a
backslash — iff it contains a space, tab, single quote or double
quote, and emitted unchanged otherwise; quoting the two sample strings
gives the claimed results. -/
theorem renderCommand_quoting (cmd : String) (args : List String) :
    renderCommand cmd args =
      strJoin (cmd :: args.map (fun a =>
        if a.toList.any (fun c => c == ' ' || c == '\t' || c == dquote || c == squote)
        then quoteSpec a else a)) " " ∧
    quote "a\"b" = "\"a\\\"b\"" ∧
    quote "a\\b" = "\"a\\\\b\"" := by
  refine ⟨?_, by decide, by decide⟩
  have hfun : (fun a => if needsQuoting a then quote a else a) =
      (fun a : String =>
        if a.toList.any (fun c => c == ' ' || c == '\t' || c == dquote || c == squote)
        then quoteSpec a else a) := by
    funext a
    unfold needsQuoting
    split_ifs with h
    · exact quote_eq_quoteSpec a
    · rfl
  unfold renderCommand
  rw [hfun]

/-- C8: the builder performs no port coercion of its own — for any
profile with a negative port it emits -p followed by that negative
decimal string (the port being neither 0 nor 22) — while the resolver
coerces such a port to 22 before the builder ever runs. -/
theorem buildSSHArgs_negative_port (cfg : HostConfig) (rc : List String)
    (h : cfg.port < 0) :
    buildSSHArgs cfg rc =
      (if cfg.identity ≠ "" then ["-i", cfg.identity] else []) ++
      ["-p", intDec cfg.port] ++
      [if cfg.user ≠ "" then cfg.user ++ "@" ++ cfg.host else cfg.host] ++ rc ∧
    (cfg.host ≠ "" → validateConfig cfg = Except.ok (HostConfig.mk cfg.host cfg.user 22 cfg.identity)) := by
  constructor
  · rw [buildSSHArgs_eq]
    have h0 : cfg.port ≠ 0 := by omega
    have h22 : cfg.port ≠ 22 := by omega
    rw [if_pos (And.intro h0 h22)]
  · intro hh
    unfold validateConfig
    rw [if_neg hh, if_pos (le_of_lt h)]

/-- Witness for C8 at port -1: -p -1 is emitted verbatim, and the
resolver's validation step coerces the same profile to port 22. -/
theorem buildSSHArgs_negative_port_witness :
    buildSSHArgs (HostConfig.mk "h" "" (-1) "") [] = ["-p", "-1", "h"] ∧
    validateConfig (HostConfig.mk "h" "" (-1) "") = Except.ok (HostConfig.mk "h" "" 22 "") := by
  have h := buildSSHArgs_negative_port (HostConfig.mk "h" "" (-1) "") [] (by decide)
  refine ⟨?_, h.2 (by decide)⟩
  rw [h.1]
  decide

/-- C9: the quoting trigger checks only space, tab, single quote and
double quote — an argument containing none of those four characters is
rendered verbatim, unquoted and with its backslashes untouched, even if
it holds other shell metacharacters. -/
theorem renderCommand_only_four_chars (cmd s : String)
    (h : ∀ c ∈ s.toList, ¬(c = ' ' ∨ c = '\t' ∨ c = dquote ∨ c = squote)) :
    renderCommand cmd [s] = cmd ++ " " ++ s := by
  have hq : needsQuoting s = false := by
    unfold needsQuoting
    rw [List.any_eq_false]
    intro c hc
    have hh := h c hc
    simp only [not_or] at hh
    simp [hh.1, hh.2.1, hh.2.2.1, hh.2.2.2]
  unfold renderCommand
  simp [hq, strJoin]

/-- Witness for C9: an argument with dollar, semicolon, backtick, star
and a backslash is rendered verbatim with the backslash not doubled. -/
theorem renderCommand_only_four_chars_witness :
    renderCommand "ssh" ["a$b;`*\\x"] = "ssh" ++ " " ++ "a$b;`*\\x" :=
  renderCommand_only_four_chars "ssh" "a$b;`*\\x" (by decide)

/-- C3: each field of the resolved profile comes from the
highest-precedence source that sets it — explicit flag, then the
environment variable named by the GSSH prefix and the upper-cased flag
name with dashes as underscores, then the profile file (consulted when
a target is given), then the built-in default (port 22, empty strings)
— independently per field, falling through when unset. -/
theorem resolve_precedence :
    (envKey "host" = "GSSH_HOST" ∧ envKey "user" = "GSSH_USER" ∧
     envKey "port" = "GSSH_PORT" ∧ envKey "identity" = "GSSH_IDENTITY" ∧
     envKey "dry-run" = "GSSH_DRY_RUN") ∧
    (∀ (α : Type) (flag env file : Option α) (dflt : α),
      (∀ v, flag = some v → pickFirst flag env file dflt = v) ∧
      (flag = none → ∀ v, env = some v → pickFirst flag env file dflt = v) ∧
      (flag = none → env = none → ∀ v, file = some v → pickFirst flag env file dflt = v) ∧
      (flag = none → env = none → file = none → pickFirst flag env file dflt = dflt)) ∧
    (∀ (flags : PartialProfile) (rawEnv : String → Option String) (file : PartialProfile),
      mergeSources flags (envProfile rawEnv) file =
        HostConfig.mk
          (pickFirst flags.host (rawEnv (envKey "host")) file.host "")
          (pickFirst flags.user (rawEnv (envKey "user")) file.user "")
          (pickFirst flags.port
            ((rawEnv (envKey "port")).map (fun s => (s.toInt?).getD 0)) file.port 22)
          (pickFirst flags.identity (rawEnv (envKey "identity")) file.identity "")) ∧
    (∀ (flags : PartialProfile) (rawEnv : String → Option String) (t : String)
       (rf : String → Except String PartialProfile) (p : PartialProfile),
      t ≠ "" → rf t = Except.ok p →
      resolve flags rawEnv t rf = finalize flags rawEnv p) := by
  refine ⟨by decide, ?_, ?_, ?_⟩
  · intro α flag env file dflt
    refine ⟨?_, ?_, ?_, ?_⟩
    · intro v hv
      subst hv
      rfl
    · intro h1 v hv
      subst h1
      subst hv
      rfl
    · intro h1 h2 v hv
      subst h1
      subst h2
      subst hv
      rfl
    · intro h1 h2 h3
      subst h1
      subst h2
      subst h3
      rfl
  · intro flags rawEnv file
    rfl
  · intro flags rawEnv t rf p ht hp
    unfold resolve
    rw [if_neg ht, hp]

/-- Witness for C3: each precedence level at concrete values, and a
successful file read reaching the merge for a concrete target. -/
theorem resolve_precedence_witness :
    pickFirst (some (1 : Int)) (some 2) (some 3) 0 = 1 ∧
    pickFirst (none : Option Int) (some 2) (some 3) 0 = 2 ∧
    pickFirst (none : Option Int) none (some 3) 0 = 3 ∧
    pickFirst (none : Option Int) none none 0 = 0 ∧
    resolve emptyPartial (fun _ => none) "ipa" (fun _ => Except.ok emptyPartial) =
      finalize emptyPartial (fun _ => none) emptyPartial :=
  ⟨(resolve_precedence.2.1 Int (some 1) (some 2) (some 3) 0).1 1 rfl,
   (resolve_precedence.2.1 Int none (some 2) (some 3) 0).2.1 rfl 2 rfl,
   (resolve_precedence.2.1 Int none none (some 3) 0).2.2.1 rfl rfl 3 rfl,
   (resolve_precedence.2.1 Int none none none 0).2.2.2 rfl rfl rfl,
   resolve_precedence.2.2.2 emptyPartial (fun _ => none) "ipa"
     (fun _ => Except.ok emptyPartial) emptyPartial (by decide) rfl⟩

/-- C5 counterexample: for the single regular file A.YML the extension
matches case-insensitively but the case-sensitive trim does not strip
it, so the code returns the whole name A.YML, not the stripped A the
claim states. -/
theorem listTargets_claim_counterexample :
    listTargets (some [DirEntry.mk "A.YML" false]) = some ["A.YML"] ∧
    listTargets (some [DirEntry.mk "A.YML" false]) ≠ some ["A"] := by
  decide

/-- C5 (amended): for a readable directory, listTargets returns exactly
the per-entry targets of the amended rule — direct non-directory
entries whose extension lower-cases to .yaml or .yml, with that
lower-cased extension stripped when the name ends with it and the whole
name kept otherwise — sorted lexicographically ascending; a failed
directory read yields a failure rather than a list. -/
theorem listTargets_amended :
    listTargets none = none ∧
    ∀ entries : List DirEntry, ∃ l : List String,
      listTargets (some entries) = some l ∧
      List.Sorted (fun a b => strLe a b = true) l ∧
      l.Perm (entries.filterMap targetOfEntrySpec) := by
  refine ⟨rfl, ?_⟩
  intro entries
  refine ⟨List.insertionSort (fun a b => strLe a b = true)
    (entries.filterMap targetOfEntrySpec), rfl, ?_, ?_⟩
  · exact List.sorted_insertionSort _ _
  · exact List.perm_insertionSort _ _

/-- C6: list mode always exits 0; a failing candidate directory is
silently skipped with no effect on the output; the informational
message is printed exactly when zero targets were found across all
candidate directories. -/
theorem listMode_nonfatal (dirs pre post : List CandidateDir) (d : CandidateDir)
    (hd : d.contents = none) :
    (listMode dirs).exitCode = 0 ∧
    ((listMode dirs).noTargetsMsg = true ↔ allTargets dirs = []) ∧
    listMode (pre ++ d :: post) = listMode (pre ++ post) := by
  refine ⟨rfl, ?_, ?_⟩
  · simp [listMode, listLoop_found, allTargets_eq_nil_iff]
  · unfold listMode
    rw [listLoop_skip pre post [] false d hd]

/-- Witness for C6: a single unreadable directory — exit 0, message
printed, and the directory skipped. -/
theorem listMode_nonfatal_witness :
    (listMode [CandidateDir.mk "x" none]).exitCode = 0 ∧
    ((listMode [CandidateDir.mk "x" none]).noTargetsMsg = true ↔
      allTargets [CandidateDir.mk "x" none] = []) ∧
    listMode ([] ++ CandidateDir.mk "x" none :: []) = listMode ([] ++ []) :=
  listMode_nonfatal [CandidateDir.mk "x" none] [] [] (CandidateDir.mk "x" none) rfl

/-- C7: with no target supplied the profile file layer is never
consulted — the result does not depend on the file reader at all and
equals the flags/environment/defaults resolution — and the outcome is
either a resolved profile or the missing-host validation failure, never
a config read failure. -/
theorem resolve_no_target_frame (flags : PartialProfile)
    (rawEnv : String → Option String)
    (rf1 rf2 : String → Except String PartialProfile) :
    resolve flags rawEnv "" rf1 = resolve flags rawEnv "" rf2 ∧
    resolve flags rawEnv "" rf1 = finalize flags rawEnv emptyPartial ∧
    ((∃ cfg, resolve flags rawEnv "" rf1 = Except.ok cfg) ∨
      resolve flags rawEnv "" rf1 = Except.error (ResolveErr.validation hostRequiredMsg)) := by
  have hr : ∀ rf : String → Except String PartialProfile,
      resolve flags rawEnv "" rf = finalize flags rawEnv emptyPartial := by
    intro rf
    unfold resolve
    rw [if_pos rfl]
  refine ⟨(hr rf1).trans (hr rf2).symm, hr rf1, ?_⟩
  rcases hv : validateConfig (mergeSources flags (envProfile rawEnv) emptyPartial)
    with m | cfg
  · right
    rw [hr rf1]
    unfold finalize
    rw [hv, validateConfig_error_msg hv]
  · left
    refine ⟨cfg, ?_⟩
    rw [hr rf1]
    unfold finalize
    rw [hv]

/-- C10: a directory entry that is a regular file named exactly .yaml
or .yml contributes the empty string as a target name: stripping the
extension removes the entire file name. -/
theorem listTargets_bare_extension (entries : List DirEntry) (e : DirEntry)
    (he : e ∈ entries) (hd : e.isDir = false)
    (hn : e.name = ".yaml" ∨ e.name = ".yml") :
    ∃ l, listTargets (some entries) = some l ∧ "" ∈ l := by
  refine ⟨_, rfl, ?_⟩
  rw [List.mem_insertionSort]
  refine List.mem_filterMap.mpr ⟨e, he, ?_⟩
  rcases hn with h | h
  · simp only [hd, h]
    decide
  · simp only [hd, h]
    decide

/-- Witness for C10: the directory with the single regular file named
.yaml lists the empty-string target. -/
theorem listTargets_bare_extension_witness :
    ∃ l, listTargets (some [DirEntry.mk ".yaml" false]) = some l ∧ "" ∈ l :=
  listTargets_bare_extension [DirEntry.mk ".yaml" false] (DirEntry.mk ".yaml" false)
    (List.mem_singleton.mpr rfl) rfl (Or.inl rfl)
